import Mathlib

set_option autoImplicit false

/-
Verification development for the yak-ffmpeg-n8n-nodes repository.

The repository contains two lineage variants of one n8n node class:
  * src/unnamed/part_000          - JSON-parameter-file transport variant
    (binary bridge, transient-file cleanup in a finally block, no timeout)
  * src/nodes/FFmpegNode.node.ts  - CLI-flag transport variant
    (30 s timeout, no binary bridge, no transient files)

The definitions below are a shallow embedding of both variants: JS runtime
values, parameter objects (insertion-ordered association lists, as JS object
keys are), the binary input bridge, the output-record construction, the
process invoker (with and without timeout), the per-item loop, and the
dynamic-property builder.
-/

namespace FFmpegNode

/-- JS-like runtime value of a resolved n8n node parameter. -/
inductive Value where
  | str (s : String)
  | bool (b : Bool)
  | num (n : Int)
  | null
  | undef
deriving Repr, DecidableEq

/-- JS truthiness of a parameter value. -/
def Value.truthy : Value → Bool
  | .str s => s != ""
  | .bool b => b
  | .num n => n != 0
  | .null => false
  | .undef => false

/-- JS String(v) conversion. -/
def Value.toJsString : Value → String
  | .str s => s
  | .bool b => if b then "true" else "false"
  | .num n => toString n
  | .null => "null"
  | .undef => "undefined"

/-- Lookup in a JS object modelled as an insertion-ordered association list. -/
def alookup {α : Type} : List (String × α) → String → Option α
  | [], _ => none
  | kv :: rest, k => if kv.1 = k then some kv.2 else alookup rest k

/-- JS property assignment obj[k] = v (or spread override): replaces the value
in place when the key exists, appends at the end otherwise. -/
def aset {α : Type} : List (String × α) → String → α → List (String × α)
  | [], k, v => [(k, v)]
  | kv :: rest, k, v => if kv.1 = k then (k, v) :: rest else kv :: aset rest k v

theorem alookup_aset_self {α : Type} (l : List (String × α)) (k : String) (v : α) :
    alookup (aset l k v) k = some v := by
  induction l with
  | nil => simp [aset, alookup]
  | cons kv rest ih =>
    by_cases h : kv.1 = k
    · simp [aset, alookup, h]
    · simp [aset, alookup, h, ih]

theorem alookup_aset_ne {α : Type} (l : List (String × α)) (k k2 : String) (v : α)
    (h : k2 ≠ k) : alookup (aset l k v) k2 = alookup l k2 := by
  have hne : k ≠ k2 := Ne.symm h
  induction l with
  | nil => simp [aset, alookup, hne]
  | cons kv rest ih =>
    by_cases hk : kv.1 = k
    · subst hk
      simp [aset, alookup, hne]
    · by_cases hk2 : kv.1 = k2
      · simp [aset, hk, alookup, hk2, hne, h]
      · simp [aset, hk, alookup, hk2, ih]

/-- Keys of a JS object, in insertion order (Object.keys for string keys). -/
def akeys {α : Type} (l : List (String × α)) : List String := l.map Prod.fst

/-- JSON values as produced by JSON.parse. -/
inductive Json where
  | null
  | bool (b : Bool)
  | num (n : Int)
  | str (s : String)
  | arr (elems : List Json)
  | obj (fields : List (String × Json))
deriving Repr

/-- JS property access j.k: a field of an object, undefined otherwise. -/
def jfield : Json → String → Option Json
  | .obj fields, k => alookup fields k
  | _, _ => none

/-- JS truthiness of a JSON value. -/
def Json.truthy : Json → Bool
  | .null => false
  | .bool b => b
  | .num n => n != 0
  | .str s => s != ""
  | .arr _ => true
  | .obj _ => true

/-- Truthiness of a possibly-undefined property access. -/
def fieldTruthy (j : Json) (k : String) : Bool :=
  match jfield j k with
  | some v => v.truthy
  | none => false

/-- Value of one base64 alphabet character. -/
def b64Val (c : Char) : Option Nat :=
  if 'A' ≤ c ∧ c ≤ 'Z' then some (c.toNat - 65)
  else if 'a' ≤ c ∧ c ≤ 'z' then some (c.toNat - 97 + 26)
  else if '0' ≤ c ∧ c ≤ '9' then some (c.toNat - 48 + 52)
  else if c = '+' then some 62
  else if c = '/' then some 63
  else none

/-- Decode one final base64 group of 2, 3 or 4 sextets into 1, 2 or 3 bytes. -/
def b64Group : List Nat → List Nat
  | [a, b] => [(a * 4 + b / 16) % 256]
  | [a, b, c] => [(a * 4 + b / 16) % 256, ((b % 16) * 16 + c / 4) % 256]
  | [a, b, c, d] =>
    [(a * 4 + b / 16) % 256, ((b % 16) * 16 + c / 4) % 256, ((c % 4) * 64 + d) % 256]
  | _ => []

/-- Decode a sextet stream four at a time. -/
def b64Chunks : List Nat → List Nat
  | a :: b :: c :: d :: rest => b64Group [a, b, c, d] ++ b64Chunks rest
  | rest => b64Group rest

/-- Base64 decoding of a string to a byte list, as Buffer.from(s, base64)
performs it on well-formed input (padding stripped, 6-bit groups packed). -/
def base64Decode (s : String) : List Nat :=
  b64Chunks ((s.data.filter (fun c => c ≠ '=')).filterMap b64Val)

example : base64Decode "YWJj" = [97, 98, 99] := by decide
example : base64Decode "YQ==" = [97] := by decide
example : base64Decode "" = [] := by decide

/-- Removal of the first occurrence of pat from a character list; the list is
unchanged when pat does not occur. -/
def removeFirstSub (pat : List Char) : List Char → List Char
  | [] => []
  | c :: rest =>
    if pat.isPrefixOf (c :: rest) then (c :: rest).drop pat.length
    else c :: removeFirstSub pat rest

/-- JS s.replace(pat, "") with a string (non-regex) pattern: removes only the
FIRST occurrence of pat, not necessarily a trailing one. -/
def jsRemoveFirst (s pat : String) : String :=
  ⟨removeFirstSub pat.data s.data⟩

/-- JS s.endsWith(post). -/
def jsEndsWith (s post : String) : Bool :=
  post.data.isSuffixOf s.data

/-- JS s.trim(): strip whitespace from both ends. -/
def jsTrim (s : String) : String :=
  ⟨((s.data.dropWhile Char.isWhitespace).reverse.dropWhile Char.isWhitespace).reverse⟩

example : jsRemoveFirst "inputFileIsBinary" "IsBinary" = "inputFile" := by decide
example : jsRemoveFirst "IsBinaryfooIsBinary" "IsBinary" = "fooIsBinary" := by decide
example : jsEndsWith "inputFileIsBinary" "IsBinary" = true := by decide
example : jsTrim "  not json\n" = "not json" := by decide

/-- One entry of an item's binary attachments (items[i].binary), as the
execute method consumes it: the buffer returned by getBinaryDataBuffer and
the optional original fileName. -/
structure Attachment where
  bytes : List Nat
  fileName : Option String
deriving Repr, DecidableEq

/-- Resolved parameter set, a JS object in insertion order. -/
abbrev Params := List (String × Value)

/-- Binary attachments of one input item, keyed by property name. -/
abbrev Attachments := List (String × Attachment)

/-- Contents of a transient file written during one invocation attempt:
either bridged binary bytes or the serialized parameter set. -/
inductive FileData where
  | bin (bytes : List Nat)
  | paramsJson (ps : Params)
deriving Repr, DecidableEq

/-- Errors thrown inside the per-item try block; one constructor per throw
site of the two source variants. -/
inductive NodeErr where
  | noFunctionSelected
  | paramNotResolved (name : String)
  | manifestReadFailed
  | manifestNotFound
  | functionNotFound (value : String)
  | scriptAccessFailed (scriptFile : String)
  | scriptNotFound (scriptFile : String)
  | uiReadFailed (uiFile : String)
  | binaryMissing (propertyName : String)
  | scriptFailed (detail : String)
  | scriptStartFailed (msg : String)
  | scriptTimedOut
deriving Repr, DecidableEq

/-- Message text of each error, as the source builds it (the message of the
NodeOperationError / Error that the per-item catch receives). -/
def NodeErr.message : NodeErr → String
  | .noFunctionSelected => "No function selected."
  | .paramNotResolved n => "Could not get parameter " ++ n
  | .manifestReadFailed => "Failed to read or parse JSON file: ffmpeg_node_manifest.json"
  | .manifestNotFound => "Manifest file not found: ffmpeg_node_manifest.json"
  | .functionNotFound v => "Function \x27" ++ v ++ "\x27 not found."
  | .scriptAccessFailed s => "ENOENT: no such file or directory, access " ++ s
  | .scriptNotFound s => "Script file not found: " ++ s
  | .uiReadFailed u => "Failed to read or parse JSON file: " ++ u
  | .binaryMissing p => "Binary property \x27" ++ p ++ "\x27 not found in input data."
  | .scriptFailed d => "Script failed: " ++ d
  | .scriptStartFailed m => "Failed to start script: " ++ m
  | .scriptTimedOut => "Script execution timed out"

/-- Transient binary-bridge path n8n-ffmpeg-bin-(Date.now())-(fileName); the
Date.now() clock is passed in explicitly. -/
def tempBinPath (now : Nat) (fileName : String) : String :=
  "n8n-ffmpeg-bin-" ++ toString now ++ "-" ++ fileName

/-- Transient serialized-parameter path n8n-ffmpeg-params-(Date.now())-(i).json. -/
def tempParamsPath (now : Nat) (itemIndex : Nat) : String :=
  "n8n-ffmpeg-params-" ++ toString now ++ "-" ++ toString itemIndex ++ ".json"

/-- Body of the binary-toggle loop of src/unnamed/part_000 (lines 214-244)
for one toggle key: when the toggle is strictly true and the sibling
(prefix)BinaryPropertyName parameter is truthy, look the sibling value up in
the item attachments, write the buffer to a transient file and rewrite the
sibling to the file path; throw when the attachment is missing; otherwise
leave the accumulated state unchanged. The accumulator carries the parameter
object being rewritten and the transient files written so far. -/
def bridgeStep (binAtt : Attachments) (now : Nat)
    (acc : Params × List (String × FileData)) (toggleKey : String) :
    Except NodeErr (Params × List (String × FileData)) :=
  if alookup acc.1 toggleKey = some (Value.bool true) then
    let prefixStr := jsRemoveFirst toggleKey "IsBinary"
    let binaryPropNameKey := prefixStr ++ "BinaryPropertyName"
    match alookup acc.1 binaryPropNameKey with
    | some v =>
      if v.truthy then
        let binaryPropertyName := v.toJsString
        match alookup binAtt binaryPropertyName with
        | none => .error (.binaryMissing binaryPropertyName)
        | some att =>
          let fileName := att.fileName.getD (binaryPropertyName ++ ".bin")
          let tempPath := tempBinPath now fileName
          .ok (aset acc.1 binaryPropNameKey (.str tempPath),
               acc.2 ++ [(tempPath, .bin att.bytes)])
      else .ok acc
    | none => .ok acc
  else .ok acc

/-- Toggle loop of src/unnamed/part_000 (lines 214-244) over the collected
toggle keys. A throw escapes the loop, but the transient files pushed by
earlier iterations remain recorded (they were pushed onto tempFiles and the
finally block will still see them), so the created-file list is returned even
on the error path. -/
def bridgeLoop (binAtt : Attachments) (now : Nat) :
    List String → Params × List (String × FileData) →
    Except NodeErr Params × List (String × FileData)
  | [], acc => (.ok acc.1, acc.2)
  | k :: rest, acc =>
    match bridgeStep binAtt now acc k with
    | .ok acc2 => bridgeLoop binAtt now rest acc2
    | .error e => (.error e, acc.2)

/-- Binary input handling of src/unnamed/part_000 (lines 206-244): collect
every parameter key ending in IsBinary, then run the toggle loop over them. -/
def bridgeBinaryInputs (parameters : Params) (binAtt : Attachments) (now : Nat) :
    Except NodeErr Params × List (String × FileData) :=
  let binaryToggleKeys := (akeys parameters).filter (fun k => jsEndsWith k "IsBinary")
  bridgeLoop binAtt now binaryToggleKeys (parameters, [])

example : bridgeBinaryInputs
    [("inputFileIsBinary", .bool true), ("inputFileBinaryPropertyName", .str "data")]
    [("data", ⟨[1, 2, 3], some "clip.mp4"⟩)] 5 =
    (.ok [("inputFileIsBinary", .bool true),
          ("inputFileBinaryPropertyName", .str "n8n-ffmpeg-bin-5-clip.mp4")],
     [("n8n-ffmpeg-bin-5-clip.mp4", .bin [1, 2, 3])]) := by rfl

example : bridgeBinaryInputs
    [("inputFileIsBinary", .bool true), ("inputFileBinaryPropertyName", .str "data")]
    [] 5 = (.error (.binaryMissing "data"), []) := by rfl

example : bridgeBinaryInputs
    [("inputFileIsBinary", .bool true)] [] 5 =
    (.ok [("inputFileIsBinary", .bool true)], []) := by rfl

/-- Observable behavior of one spawned python process: whether spawn succeeds
(the error event fires otherwise), when (in ms) the close event fires if
ever, the exit code, and the accumulated stdout/stderr text. -/
structure ProcBehavior where
  startOk : Bool
  startErrMsg : String
  closesAt : Option Nat
  exitCode : Int
  stdout : String
  stderr : String
deriving Repr

/-- Settlement of the invocation promise of src/unnamed/part_000
(lines 251-262): the promise can also never settle, since no timer is set. -/
inductive InvokeOutcome where
  | hang
  | failed (e : NodeErr)
  | ok (stdoutTrimmed : String)
deriving Repr, DecidableEq

/-- Invocation promise of src/unnamed/part_000 lines 251-262: settles only on
the error or close events; no timeout timer exists, so a process that never
closes hangs the promise forever. -/
def invokeNoTimeout (p : ProcBehavior) : InvokeOutcome :=
  if !p.startOk then .failed (.scriptStartFailed p.startErrMsg)
  else match p.closesAt with
    | none => .hang
    | some _ =>
      if p.exitCode ≠ 0 then
        .failed (.scriptFailed
          (if p.stderr ≠ "" then p.stderr
           else "Exited with code " ++ toString p.exitCode))
      else .ok (jsTrim p.stdout)

/-- Fixed execution timeout of src/nodes/FFmpegNode.node.ts line 284. -/
def timeoutMs : Nat := 30000

/-- Invocation promise of src/nodes/FFmpegNode.node.ts lines 253-289: same
events plus a timer after limitMs that kills the process and rejects with the
timeout error, so the promise always settles. -/
def invokeWithTimeout (limitMs : Nat) (p : ProcBehavior) : Except NodeErr String :=
  if !p.startOk then .error (.scriptStartFailed p.startErrMsg)
  else match p.closesAt with
    | none => .error .scriptTimedOut
    | some t =>
      if limitMs < t then .error .scriptTimedOut
      else if p.exitCode ≠ 0 then
        .error (.scriptFailed
          (if p.stderr ≠ "" then p.stderr
           else "Script exited with code " ++ toString p.exitCode))
      else .ok (jsTrim p.stdout)

/-- Whether the timeout path kills the process: the timer fires with the
process still running iff spawn succeeded and the close event has not fired
within the limit. -/
def timeoutKills (limitMs : Nat) (p : ProcBehavior) : Bool :=
  p.startOk &&
    match p.closesAt with
    | none => true
    | some t => limitMs < t

/-- Result decoding of src/unnamed/part_000 lines 264-269 and
src/nodes/FFmpegNode.node.ts lines 291-299: strict JSON.parse, with the
defined fallback object on parse failure. JSON.parse is a host runtime
builtin and is passed in as a function; scriptResult is the already-trimmed
stdout the invocation promise resolved with. -/
def decodeStdout (parse : String → Option Json) (scriptResult : String) : Json :=
  match parse scriptResult with
  | some j => j
  | none => .obj [("output", .str scriptResult), ("parseError", .bool true)]

/-- One output record (INodeExecutionData): json body, binary attachments and
the pairedItem correlation index. -/
structure Record where
  json : Json
  binary : List (String × Attachment)
  pairedItem : Nat
deriving Repr

/-- Bytes produced by Buffer.from(field, base64); modelled precisely for
string payloads (the only shape the script contract emits). -/
def binFieldBytes : Option Json → List Nat
  | some (.str s) => base64Decode s
  | _ => []

/-- String cast of the file_name field value. -/
def fileNameCast : Option Json → String
  | some (.str s) => s
  | some (.bool b) => if b then "true" else "false"
  | some (.num n) => toString n
  | some .null => "null"
  | some (.arr _) => ""
  | some (.obj _) => "[object Object]"
  | none => "undefined"

/-- Binary output handling of src/unnamed/part_000 lines 271-289: when both
binary_data and file_name are truthy the record carries the decoded buffer as
a binary attachment under the fixed key data with an empty json body;
otherwise the decoded json is the record body. -/
def buildOutputRecord (jsonResult : Json) (itemIndex : Nat) : Record :=
  if fieldTruthy jsonResult "binary_data" && fieldTruthy jsonResult "file_name" then
    { json := .obj [],
      binary := [("data",
        { bytes := binFieldBytes (jfield jsonResult "binary_data"),
          fileName := some (fileNameCast (jfield jsonResult "file_name")) })],
      pairedItem := itemIndex }
  else
    { json := jsonResult, binary := [], pairedItem := itemIndex }

/-- One manifest function entry. -/
structure IFFmpegFunction where
  name : String
  value : String
  uiFile : String
  scriptFile : String
deriving Repr, DecidableEq

/-- Parsed manifest file. -/
structure IManifest where
  functions : List IFFmpegFunction
deriving Repr

/-- The displayOptions of one n8n property; showConds and hideConds model the
source keys show and hide (maps from parameter name to allowed values). -/
structure DisplayOptions where
  showConds : List (String × List Value)
  hideConds : List (String × List Value)
deriving Repr, DecidableEq

/-- One property descriptor of a UI-schema file. -/
structure UiProp where
  name : String
  type : String
  default : Option Value
  displayOptions : Option DisplayOptions
deriving Repr, DecidableEq

/-- Parsed UI-schema file. -/
structure UiConfig where
  properties : List UiProp
deriving Repr

/-- Host and filesystem environment of one execute call: what fs.access and
readJson observe for each file, the JSON.parse builtin, the spawned process
behavior per item index, and the Date.now clock. -/
structure Env where
  manifestAccess : Bool
  manifestJson : Option IManifest
  scriptAccess : String → Bool
  uiAccess : String → Bool
  uiJson : String → Option UiConfig
  parse : String → Option Json
  proc : Nat → List String → ProcBehavior
  now : Nat

/-- One input item with its host parameter accessor: getParam models
getNodeParameter by name (none models the host throwing or having no value
for that parameter) and binary the item binary attachments. -/
structure Item where
  getParam : String → Option Value
  binary : Attachments

/-- Parameter resolution loop of src/unnamed/part_000 lines 195-204: one
entry per named schema property whose host lookup succeeds, in schema
order. -/
def resolveParameters (item : Item) (props : List UiProp) : Params :=
  props.foldl (fun ps p =>
    if p.name = "" then ps
    else match item.getParam p.name with
      | some v => aset ps p.name v
      | none => ps) []

/-- Completion state of one item of src/unnamed/part_000: the invocation
promise may never settle (hang), else the try block ends in a record or a
caught error. -/
inductive ItemOutcome where
  | hang
  | done (r : Except NodeErr Record)
deriving Repr

/-- Per-item try block of src/unnamed/part_000 lines 179-291, producing the
outcome together with every transient file created during the attempt. -/
def processItem000 (env : Env) (item : Item) (itemIndex : Nat) :
    ItemOutcome × List (String × FileData) :=
  let sel := (item.getParam "selectedFunction").getD (.str "")
  if !sel.truthy then (.done (.error .noFunctionSelected), [])
  else match env.manifestJson with
  | none => (.done (.error .manifestReadFailed), [])
  | some manifest =>
    match manifest.functions.find? (fun f => sel = Value.str f.value) with
    | none => (.done (.error (.functionNotFound sel.toJsString)), [])
    | some selectedFunction =>
      if !env.scriptAccess selectedFunction.scriptFile then
        (.done (.error (.scriptAccessFailed selectedFunction.scriptFile)), [])
      else match env.uiJson selectedFunction.uiFile with
      | none => (.done (.error (.uiReadFailed selectedFunction.uiFile)), [])
      | some uiConfig =>
        let parameters := resolveParameters item uiConfig.properties
        let bridged := bridgeBinaryInputs parameters item.binary env.now
        match bridged.1 with
        | .error e => (.done (.error e), bridged.2)
        | .ok processedParameters =>
          let paramsPath := tempParamsPath env.now itemIndex
          let created := bridged.2 ++ [(paramsPath, .paramsJson processedParameters)]
          match invokeNoTimeout (env.proc itemIndex [selectedFunction.scriptFile, paramsPath]) with
          | .hang => (.hang, created)
          | .failed e => (.done (.error e), created)
          | .ok scriptResult =>
            let jsonResult := decodeStdout env.parse scriptResult
            (.done (.ok (buildOutputRecord jsonResult itemIndex)), created)

/-- Cleanup loop of the finally block, src/unnamed/part_000 lines 298-307:
unlink every recorded temp file in order; a failed unlink (oracle false) is
logged and skipped, never rethrown. The filesystem state is the list of
still-existing transient files. -/
def cleanupLoop (unlinkOk : String → Bool) :
    List String → List (String × FileData) → List (String × FileData)
  | [], fsState => fsState
  | p :: rest, fsState =>
    if unlinkOk p then cleanupLoop unlinkOk rest (fsState.filter (fun f => f.1 ≠ p))
    else cleanupLoop unlinkOk rest fsState

/-- One full item attempt of src/unnamed/part_000 including the finally
block: when the try block exits (normally or by throw) every recorded temp
file is unlinked best-effort; when the invocation promise hangs, control
never reaches finally and the files persist. -/
def processItemCleaned (env : Env) (unlinkOk : String → Bool) (item : Item)
    (itemIndex : Nat) : ItemOutcome × List (String × FileData) :=
  match processItem000 env item itemIndex with
  | (.hang, created) => (.hang, created)
  | (.done r, created) => (.done r, cleanupLoop unlinkOk (created.map Prod.fst) created)

/-- Value resolution of src/nodes/FFmpegNode.node.ts line 240:
getNodeParameter(prop.name, itemIndex, prop.default or the empty string when
the default is falsy or absent). -/
def resolvedValueFF (item : Item) (p : UiProp) : Value :=
  let fallback := match p.default with
    | some d => if d.truthy then d else Value.str ""
    | none => Value.str ""
  (item.getParam p.name).getD fallback

/-- Loop body of the CLI-argument construction, src/nodes/FFmpegNode.node.ts
lines 237-246: nameless properties are skipped; undefined, null and the empty
string push nothing, every other value pushes the pair --name, String(value). -/
def argStep (item : Item) (args : List String) (p : UiProp) : List String :=
  if p.name = "" then args
  else
    let value := resolvedValueFF item p
    if value = Value.undef ∨ value = Value.null ∨ value = Value.str "" then args
    else args ++ ["--" ++ p.name, value.toJsString]

/-- CLI-argument construction of src/nodes/FFmpegNode.node.ts lines 236-246,
in schema property order. -/
def buildArgs (item : Item) (props : List UiProp) : List String :=
  props.foldl (argStep item) []

/-- Per-item try block of src/nodes/FFmpegNode.node.ts lines 196-304. The UI
config read is wrapped in its own try/catch (a failure only logs a warning
and leaves args empty); the invocation has the 30 s timeout, so the item
always completes. This variant writes no transient files and has no binary
branch on output. -/
def processItemFF (env : Env) (item : Item) (itemIndex : Nat) :
    Except NodeErr Record :=
  match item.getParam "selectedFunction" with
  | none => .error (.paramNotResolved "selectedFunction")
  | some sel =>
    if !sel.truthy then .error .noFunctionSelected
    else if !env.manifestAccess then .error .manifestNotFound
    else match env.manifestJson with
    | none => .error .manifestReadFailed
    | some manifest =>
      match manifest.functions.find? (fun f => sel = Value.str f.value) with
      | none => .error (.functionNotFound sel.toJsString)
      | some selectedFunction =>
        if !env.scriptAccess selectedFunction.scriptFile then
          .error (.scriptNotFound selectedFunction.scriptFile)
        else
          let args :=
            if !env.uiAccess selectedFunction.uiFile then []
            else match env.uiJson selectedFunction.uiFile with
              | none => []
              | some uiConfig => buildArgs item uiConfig.properties
          match invokeWithTimeout timeoutMs
              (env.proc itemIndex (selectedFunction.scriptFile :: args)) with
          | .error e => .error e
          | .ok scriptResult =>
            .ok { json := decodeStdout env.parse scriptResult,
                  binary := [], pairedItem := itemIndex }

/-- Error record pushed by the catch branch when continueOnFail is set:
json is the object with the single error field, paired to the item. -/
def errRecord (msg : String) (itemIndex : Nat) : Record :=
  { json := .obj [("error", .str msg)], binary := [], pairedItem := itemIndex }

/-- The per-item for loop with its item-boundary try/catch, shared by both
variants (src/unnamed/part_000 lines 178-308, src/nodes/FFmpegNode.node.ts
lines 195-318), abstracted over the per-item body: items in index order; an
error is recorded and processing continues when continueOnFail is set,
otherwise the first error is rethrown and aborts the remaining batch. -/
def runItemsFrom (proc : Nat → Item → Except NodeErr Record)
    (continueOnFail : Bool) : Nat → List Item → Except NodeErr (List Record)
  | _, [] => .ok []
  | i, it :: rest =>
    match proc i it with
    | .ok r =>
      match runItemsFrom proc continueOnFail (i + 1) rest with
      | .ok l => .ok (r :: l)
      | .error e => .error e
    | .error e =>
      if continueOnFail then
        match runItemsFrom proc continueOnFail (i + 1) rest with
        | .ok l => .ok (errRecord e.message i :: l)
        | .error e2 => .error e2
      else .error e

/-- The execute loop started at item index 0. -/
def runItems (proc : Nat → Item → Except NodeErr Record) (continueOnFail : Bool)
    (items : List Item) : Except NodeErr (List Record) :=
  runItemsFrom proc continueOnFail 0 items

/-- Augmentation of one schema property by the dynamic form builder
(src/unnamed/part_000 lines 151-160, src/nodes/FFmpegNode.node.ts lines
169-178): spread the property, spread its displayOptions (or an empty
object), spread its show map (or an empty object) and then set the
selectedFunction show key to the singleton list of the function id. -/
def augmentProp (funcValue : String) (p : UiProp) : UiProp :=
  let dOpts := p.displayOptions.getD ⟨[], []⟩
  let merged : DisplayOptions :=
    { showConds := aset dOpts.showConds "selectedFunction" [Value.str funcValue],
      hideConds := dOpts.hideConds }
  { p with displayOptions := some merged }

/-- Dynamic properties contributed by one manifest entry
(loadAndAppendDynamicProperties inner loop): entries with a falsy uiFile or
value are skipped, an unreadable UI file only logs, and each property with a
truthy name and type is appended augmented. -/
def dynamicPropsForFunction (env : Env) (func : IFFmpegFunction) : List UiProp :=
  if func.uiFile = "" ∨ func.value = "" then []
  else if !env.uiAccess func.uiFile then []
  else match env.uiJson func.uiFile with
    | none => []
    | some uiConfig =>
      (uiConfig.properties.filter (fun p => p.name != "" && p.type != "")).map
        (augmentProp func.value)

/-- loadAndAppendDynamicProperties (src/unnamed/part_000 lines 113-170,
src/nodes/FFmpegNode.node.ts lines 129-188): the list of dynamic properties
appended to the static property registry. An absent manifest returns with a
warning only; an unreadable manifest is caught by the outer catch; all other
failures degrade to skipping. -/
def loadDynamicProps (env : Env) : List UiProp :=
  if !env.manifestAccess then []
  else match env.manifestJson with
    | none => []
    | some manifest => manifest.functions.flatMap (dynamicPropsForFunction env)

/-- Satisfaction of an n8n show-condition map by the current parameter
assignment: every listed parameter currently holds one of its listed
values. -/
def showSat (ctx : List (String × Value)) (conds : List (String × List Value)) : Bool :=
  conds.all (fun kv =>
    match alookup ctx kv.1 with
    | some v => kv.2.contains v
    | none => false)

/-- The condition "the selectedFunction parameter currently holds one of the
values in the singleton list of the function id". -/
def selMatches (ctx : List (String × Value)) (funcValue : String) : Bool :=
  match alookup ctx "selectedFunction" with
  | some v => [Value.str funcValue].contains v
  | none => false

/-- CLI-flag transport value policy as claim C10 states it: for every schema
property in declared order, a resolved value of undefined, null or the empty
string contributes nothing, and every other value contributes the pair
--name, String(value). -/
def cliArgsSpec (resolve : UiProp → Value) (props : List UiProp) : List String :=
  props.flatMap (fun p =>
    let v := resolve p
    if v = Value.undef ∨ v = Value.null ∨ v = Value.str "" then []
    else ["--" ++ p.name, v.toJsString])

theorem argStep_append (item : Item) (args : List String) (p : UiProp) :
    argStep item args p = args ++ argStep item [] p := by
  unfold argStep
  by_cases h1 : p.name = ""
  · simp [h1]
  · simp only [h1, if_false]
    by_cases h2 : resolvedValueFF item p = Value.undef ∨
        resolvedValueFF item p = Value.null ∨ resolvedValueFF item p = Value.str ""
    · simp [h2]
    · simp [h2]

theorem foldl_argStep (item : Item) (props : List UiProp) (args0 : List String) :
    props.foldl (argStep item) args0 = args0 ++ props.foldl (argStep item) [] := by
  induction props generalizing args0 with
  | nil => simp
  | cons p rest ih =>
    simp only [List.foldl_cons]
    rw [ih (argStep item args0 p), ih (argStep item [] p), argStep_append item args0 p,
      List.append_assoc]

/-- C10: in the CLI-argument variant, for every schema property a resolved
value of undefined, null or the empty string is omitted entirely from the
argument list, and every other value (including boolean false and numeric 0)
is appended as the pair --name, String(value), in the schema's declared
property order. -/
theorem C10_cli_flag_policy (item : Item) (props : List UiProp)
    (h : ∀ p ∈ props, p.name ≠ "") :
    buildArgs item props = cliArgsSpec (resolvedValueFF item) props := by
  induction props with
  | nil => rfl
  | cons p rest ih =>
    have hp : p.name ≠ "" := h p (List.mem_cons_self p rest)
    have hrest := ih (fun q hq => h q (List.mem_cons_of_mem p hq))
    unfold buildArgs at hrest ⊢
    simp only [List.foldl_cons]
    rw [foldl_argStep, hrest]
    unfold cliArgsSpec
    simp only [List.flatMap_cons]
    congr 1
    unfold argStep
    simp only [hp, if_false]
    by_cases h2 : resolvedValueFF item p = Value.undef ∨
        resolvedValueFF item p = Value.null ∨ resolvedValueFF item p = Value.str ""
    · simp [h2]
    · simp [h2]

/-- Concrete item for the C10 witness. -/
def itemC10 : Item :=
  { getParam := fun n =>
      if n = "flag" then some (.bool false)
      else if n = "count" then some (.num 0)
      else if n = "skip" then some (.str "")
      else if n = "nul" then some .null
      else none,
    binary := [] }

/-- Concrete schema for the C10 witness. -/
def propsC10 : List UiProp :=
  [⟨"flag", "boolean", none, none⟩, ⟨"count", "number", none, none⟩,
   ⟨"skip", "string", none, none⟩, ⟨"nul", "string", none, none⟩,
   ⟨"note", "string", some (.str "hi"), none⟩]

/-- Witness for C10 at a concrete schema exercising boolean false, numeric 0,
the empty string, null and a defaulted value. -/
theorem C10_cli_flag_policy_witness :
    buildArgs itemC10 propsC10 = ["--flag", "false", "--count", "0", "--note", "hi"] ∧
    buildArgs itemC10 propsC10 = cliArgsSpec (resolvedValueFF itemC10) propsC10 :=
  ⟨by rfl, C10_cli_flag_policy itemC10 propsC10 (by decide)⟩

/-- C6: for every stdout text, decoding attempts a strict JSON parse first;
on parse failure the record body is the defined fallback object carrying the
trimmed stdout text and parseError true (a normal record, not an error), and
a successfully parsed object without truthy binary-result fields becomes the
record body verbatim. -/
theorem C6_decode_fallback (parse : String → Option Json) (rawStdout : String) (i : Nat) :
    (parse (jsTrim rawStdout) = none →
      buildOutputRecord (decodeStdout parse (jsTrim rawStdout)) i =
        { json := .obj [("output", .str (jsTrim rawStdout)), ("parseError", .bool true)],
          binary := [], pairedItem := i }) ∧
    (∀ j, parse (jsTrim rawStdout) = some j →
      (fieldTruthy j "binary_data" && fieldTruthy j "file_name") = false →
      buildOutputRecord (decodeStdout parse (jsTrim rawStdout)) i =
        { json := j, binary := [], pairedItem := i }) := by
  constructor
  · intro h
    simp [decodeStdout, h, buildOutputRecord, fieldTruthy, jfield, alookup]
  · intro j h hb
    simp [decodeStdout, h, buildOutputRecord, hb]

/-- Witness for C6 at the spec's own example: stdout not json with a parser
that rejects it, yielding the record body with output and parseError. -/
theorem C6_decode_fallback_witness :
    buildOutputRecord (decodeStdout (fun _ => none) (jsTrim "not json")) 0 =
      { json := .obj [("output", .str "not json"), ("parseError", .bool true)],
        binary := [], pairedItem := 0 } :=
  (C6_decode_fallback (fun _ => none) "not json" 0).1 rfl

/-- C5 (amended): the output record carries the binary attachment under the
fixed key data, with the base64-decoded bytes and the file_name value as
filename and an empty json body, exactly when both binary_data and file_name
are present with truthy (non-empty) values; otherwise the decoded json is the
record body directly. -/
theorem C5_binary_output (j : Json) (i : Nat) :
    (∀ s f : String, jfield j "binary_data" = some (.str s) → s ≠ "" →
      jfield j "file_name" = some (.str f) → f ≠ "" →
      buildOutputRecord j i =
        { json := .obj [],
          binary := [("data", { bytes := base64Decode s, fileName := some f })],
          pairedItem := i }) ∧
    ((fieldTruthy j "binary_data" && fieldTruthy j "file_name") = false →
      buildOutputRecord j i = { json := j, binary := [], pairedItem := i }) := by
  constructor
  · intro s f hb hs hf hfne
    have hb2 : fieldTruthy j "binary_data" = true := by
      simp [fieldTruthy, hb, Json.truthy, hs]
    have hf2 : fieldTruthy j "file_name" = true := by
      simp [fieldTruthy, hf, Json.truthy, hfne]
    simp [buildOutputRecord, hb2, hf2, hb, hf, binFieldBytes, fileNameCast]
  · intro h
    simp [buildOutputRecord, h]

/-- Counterexample to C5 as stated: this object contains both a binary_data
field (the empty base64 string) and a file_name field, yet the record carries
no binary attachment and the parsed object is the body, because the source
tests truthiness rather than presence. -/
theorem C5_binary_output_counterexample :
    jfield (.obj [("binary_data", .str ""), ("file_name", .str "x.bin")]) "binary_data" =
      some (.str "") ∧
    jfield (.obj [("binary_data", .str ""), ("file_name", .str "x.bin")]) "file_name" =
      some (.str "x.bin") ∧
    buildOutputRecord (.obj [("binary_data", .str ""), ("file_name", .str "x.bin")]) 0 =
      { json := .obj [("binary_data", .str ""), ("file_name", .str "x.bin")],
        binary := [], pairedItem := 0 } :=
  ⟨rfl, rfl, rfl⟩

/-- Witness for C5 at the spec's own example: base64 of abc with filename
x.bin yields the attachment with bytes 97 98 99 and an empty body. -/
theorem C5_binary_output_witness :
    base64Decode "YWJj" = [97, 98, 99] ∧
    buildOutputRecord (.obj [("binary_data", .str "YWJj"), ("file_name", .str "x.bin")]) 0 =
      { json := .obj [],
        binary := [("data", { bytes := base64Decode "YWJj", fileName := some "x.bin" })],
        pairedItem := 0 } :=
  ⟨by decide,
   (C5_binary_output (.obj [("binary_data", .str "YWJj"), ("file_name", .str "x.bin")]) 0).1
     "YWJj" "x.bin" rfl (by decide) rfl (by decide)⟩

/-- C9: a toggle parameter that is strictly true but whose sibling
BinaryPropertyName parameter is absent or falsy is skipped silently: the
toggle-loop body leaves the parameter set and the created-file list
unchanged, raises no error, and performs no attachment lookup (the result
does not depend on the item's attachments). -/
theorem C9_silent_skip (binAtt binAtt2 : Attachments) (now : Nat) (ps : Params)
    (created : List (String × FileData)) (toggleKey : String)
    (hend : jsEndsWith toggleKey "IsBinary" = true)
    (htrue : alookup ps toggleKey = some (.bool true))
    (hsib : ∀ v, alookup ps (jsRemoveFirst toggleKey "IsBinary" ++ "BinaryPropertyName") =
      some v → v.truthy = false) :
    bridgeStep binAtt now (ps, created) toggleKey = .ok (ps, created) ∧
    bridgeStep binAtt now (ps, created) toggleKey =
      bridgeStep binAtt2 now (ps, created) toggleKey := by
  have key : ∀ (b : Attachments), bridgeStep b now (ps, created) toggleKey = .ok (ps, created) := by
    intro b
    unfold bridgeStep
    rw [htrue]
    simp only [if_true]
    cases halo : alookup ps (jsRemoveFirst toggleKey "IsBinary" ++ "BinaryPropertyName") with
    | none => simp
    | some v =>
      have := hsib v halo
      simp [this]
  exact ⟨key binAtt, (key binAtt).trans (key binAtt2).symm⟩

/-- Witness for C9: a true toggle whose sibling parameter holds the empty
string is skipped, identically for two different attachment maps. -/
theorem C9_silent_skip_witness :
    bridgeStep [("data", { bytes := [1], fileName := none })] 0
      ([("aIsBinary", .bool true), ("aBinaryPropertyName", .str "")], []) "aIsBinary" =
      .ok ([("aIsBinary", .bool true), ("aBinaryPropertyName", .str "")], []) ∧
    bridgeStep [("data", { bytes := [1], fileName := none })] 0
      ([("aIsBinary", .bool true), ("aBinaryPropertyName", .str "")], []) "aIsBinary" =
      bridgeStep [] 0
        ([("aIsBinary", .bool true), ("aBinaryPropertyName", .str "")], []) "aIsBinary" :=
  C9_silent_skip [("data", { bytes := [1], fileName := none })] [] 0
    [("aIsBinary", .bool true), ("aBinaryPropertyName", .str "")] [] "aIsBinary"
    (by decide) rfl
    (by
      intro v h
      rw [show alookup [("aIsBinary", Value.bool true), ("aBinaryPropertyName", Value.str "")]
        (jsRemoveFirst "aIsBinary" "IsBinary" ++ "BinaryPropertyName") =
        some (Value.str "") by decide] at h
      injection h with h2
      subst h2
      rfl)

/-- C1 (amended): a strictly-true toggle parameter pairs with the sibling
parameter named p ++ BinaryPropertyName where p is the toggle name with its
FIRST occurrence of IsBinary removed (this coincides with the prefix before
the trailing IsBinary whenever IsBinary occurs only there); when that truthy
sibling names a present attachment, the attachment bytes are written to the
timestamped transient file and the sibling is rewritten to that path with the
toggle preserved; when it names no attachment, the step throws the
binary-attachment-missing error. -/
theorem C1_binary_bridge (binAtt : Attachments) (now : Nat) (ps : Params)
    (created : List (String × FileData)) (toggleKey pname : String)
    (htrue : alookup ps toggleKey = some (.bool true))
    (hsib : alookup ps (jsRemoveFirst toggleKey "IsBinary" ++ "BinaryPropertyName") =
      some (.str pname))
    (hpne : pname ≠ "") :
    (∀ att, alookup binAtt pname = some att →
      bridgeStep binAtt now (ps, created) toggleKey =
        .ok (aset ps (jsRemoveFirst toggleKey "IsBinary" ++ "BinaryPropertyName")
               (.str (tempBinPath now (att.fileName.getD (pname ++ ".bin")))),
             created ++ [(tempBinPath now (att.fileName.getD (pname ++ ".bin")),
               .bin att.bytes)]) ∧
      alookup (aset ps (jsRemoveFirst toggleKey "IsBinary" ++ "BinaryPropertyName")
          (.str (tempBinPath now (att.fileName.getD (pname ++ ".bin"))))) toggleKey =
        some (.bool true)) ∧
    (alookup binAtt pname = none →
      bridgeStep binAtt now (ps, created) toggleKey = .error (.binaryMissing pname)) := by
  have hne : toggleKey ≠ jsRemoveFirst toggleKey "IsBinary" ++ "BinaryPropertyName" := by
    intro he
    rw [← he] at hsib
    rw [htrue] at hsib
    simp at hsib
  have htr : (Value.str pname).truthy = true := by
    simp [Value.truthy, hpne]
  constructor
  · intro att hatt
    constructor
    · simp [bridgeStep, htrue, hsib, htr, hatt, Value.toJsString]
    · exact (alookup_aset_ne ps
        (jsRemoveFirst toggleKey "IsBinary" ++ "BinaryPropertyName") toggleKey
        (.str (tempBinPath now (att.fileName.getD (pname ++ ".bin")))) hne).trans htrue
  · intro hatt
    simp [bridgeStep, htrue, hsib, htr, hatt, Value.toJsString]

/-- Counterexample to C1 as stated: the parameter IsBinaryfooIsBinary ends in
the suffix IsBinary and is true, and the sibling named by stripping that
suffix, IsBinaryfooBinaryPropertyName, names the present attachment data; yet
the bridge rewrites nothing and creates no file, because the source removes
the FIRST occurrence of IsBinary and therefore pairs the toggle with the
absent key fooIsBinaryBinaryPropertyName. -/
theorem C1_binary_bridge_counterexample :
    jsEndsWith "IsBinaryfooIsBinary" "IsBinary" = true ∧
    jsRemoveFirst "IsBinaryfooIsBinary" "IsBinary" = "fooIsBinary" ∧
    bridgeBinaryInputs
      [("IsBinaryfooIsBinary", .bool true), ("IsBinaryfooBinaryPropertyName", .str "data")]
      [("data", { bytes := [1, 2, 3], fileName := some "a.bin" })] 0 =
      (.ok [("IsBinaryfooIsBinary", .bool true),
            ("IsBinaryfooBinaryPropertyName", .str "data")], []) :=
  ⟨by decide, by decide, rfl⟩

/-- Witness for C1 at the conventional naming: toggle inputFileIsBinary with
sibling inputFileBinaryPropertyName naming the attachment data. -/
theorem C1_binary_bridge_witness :
    bridgeStep [("data", { bytes := [1, 2, 3], fileName := some "clip.mp4" })] 5
      ([("inputFileIsBinary", .bool true), ("inputFileBinaryPropertyName", .str "data")], [])
      "inputFileIsBinary" =
      .ok (aset [("inputFileIsBinary", .bool true),
                 ("inputFileBinaryPropertyName", .str "data")]
             (jsRemoveFirst "inputFileIsBinary" "IsBinary" ++ "BinaryPropertyName")
             (.str (tempBinPath 5 "clip.mp4")),
           [(tempBinPath 5 "clip.mp4", .bin [1, 2, 3])]) :=
  ((C1_binary_bridge [("data", { bytes := [1, 2, 3], fileName := some "clip.mp4" })] 5
      [("inputFileIsBinary", .bool true), ("inputFileBinaryPropertyName", .str "data")] []
      "inputFileIsBinary" "data"
      rfl (by decide) (by decide)).1
    { bytes := [1, 2, 3], fileName := some "clip.mp4" } rfl).1

/-- C4 (amended): in the CLI-flag variant the fixed 30 s timeout is enforced:
a successfully spawned process that has not closed when the timer fires is
killed and the invocation fails with the timeout error, and the promise
always settles, so a non-terminating process never hangs the batch; the
parameter-file variant sets no timer at all. -/
theorem C4_timeout (p : ProcBehavior) (hstart : p.startOk = true)
    (hlate : ∀ t, p.closesAt = some t → timeoutMs < t) :
    invokeWithTimeout timeoutMs p = .error .scriptTimedOut ∧
    timeoutKills timeoutMs p = true := by
  constructor
  · unfold invokeWithTimeout
    rw [hstart]
    cases hc : p.closesAt with
    | none => simp
    | some t => simp [hlate t hc]
  · unfold timeoutKills
    rw [hstart]
    cases hc : p.closesAt with
    | none => simp
    | some t => simp [hlate t hc]

/-- Behavior of a successfully spawned process that never closes. -/
def procNeverCloses : ProcBehavior :=
  { startOk := true, startErrMsg := "", closesAt := none,
    exitCode := 0, stdout := "", stderr := "" }

/-- Counterexample to C4 as stated: in the parameter-file variant the
invocation promise of a process that never closes hangs forever instead of
failing with a timeout error, because that variant sets no timer. -/
theorem C4_timeout_counterexample :
    invokeNoTimeout procNeverCloses = .hang ∧
    InvokeOutcome.hang ≠ InvokeOutcome.failed .scriptTimedOut :=
  ⟨rfl, by decide⟩

/-- Witness for C4 at a process that never closes. -/
theorem C4_timeout_witness :
    invokeWithTimeout timeoutMs procNeverCloses = .error .scriptTimedOut ∧
    timeoutKills timeoutMs procNeverCloses = true :=
  C4_timeout procNeverCloses rfl (fun _ h => nomatch h)

/-- C8: an absent manifest at form-build time registers zero dynamic
properties and throws nothing; an absent manifest at invocation time makes
every processed item (any item with a truthy selected function) fail with its
variant's manifest-missing error, before any transient file is created. -/
theorem C8_missing_manifest (env : Env) (item : Item) (i : Nat) (v : Value)
    (hsel : item.getParam "selectedFunction" = some v) (htr : v.truthy = true) :
    (env.manifestAccess = false → loadDynamicProps env = []) ∧
    (env.manifestJson = none →
      processItem000 env item i = (.done (.error .manifestReadFailed), [])) ∧
    (env.manifestAccess = false → processItemFF env item i = .error .manifestNotFound) := by
  refine ⟨?_, ?_, ?_⟩
  · intro h
    simp [loadDynamicProps, h]
  · intro h
    simp [processItem000, hsel, htr, h]
  · intro h
    simp [processItemFF, hsel, htr, h]

/-- Concrete environment with no manifest file for the C8 witness. -/
def envC8 : Env :=
  { manifestAccess := false, manifestJson := none,
    scriptAccess := fun _ => false, uiAccess := fun _ => false,
    uiJson := fun _ => none, parse := fun _ => none,
    proc := fun _ _ => ⟨true, "", some 0, 0, "", ""⟩,
    now := 0 }

/-- Concrete item for the C8 witness. -/
def itemC8 : Item :=
  { getParam := fun n => if n = "selectedFunction" then some (.str "convert") else none,
    binary := [] }

/-- Witness for C8: with the manifest absent, the form build registers no
dynamic property and both variants fail the item with their manifest
errors. -/
theorem C8_missing_manifest_witness :
    loadDynamicProps envC8 = [] ∧
    processItem000 envC8 itemC8 0 = (.done (.error .manifestReadFailed), []) ∧
    processItemFF envC8 itemC8 0 = .error .manifestNotFound := by
  have h := C8_missing_manifest envC8 itemC8 0 (.str "convert") rfl (by decide)
  exact ⟨h.1 (by rfl), h.2.1 (by rfl), h.2.2 (by rfl)⟩

theorem cleanupLoop_all (unlinkOk : String → Bool) (paths : List String)
    (fsState : List (String × FileData))
    (h : ∀ f ∈ fsState, f.1 ∈ paths ∧ unlinkOk f.1 = true) :
    cleanupLoop unlinkOk paths fsState = [] := by
  induction paths generalizing fsState with
  | nil =>
    cases fsState with
    | nil => rfl
    | cons f rest => exact absurd (h f (List.mem_cons_self f rest)).1 (List.not_mem_nil f.1)
  | cons p rest ih =>
    unfold cleanupLoop
    by_cases hp : unlinkOk p = true
    · rw [if_pos hp]
      apply ih
      intro f hf
      have hf2 := List.mem_filter.mp hf
      have h3 := h f hf2.1
      refine ⟨?_, h3.2⟩
      cases List.mem_cons.mp h3.1 with
      | inl he => exact absurd he (by simpa using hf2.2)
      | inr hm => exact hm
    · rw [if_neg (by simpa using hp)]
      apply ih
      intro f hf
      have h3 := h f hf
      refine ⟨?_, h3.2⟩
      cases List.mem_cons.mp h3.1 with
      | inl he => exact absurd (he ▸ h3.2) hp
      | inr hm => exact hm

/-- C2: for every item attempt whose try block exits (normally or by a caught
throw), the finally block runs before control returns: with every unlink
succeeding, no transient file created during the attempt remains; and the
item's outcome is identical for every unlink-success oracle, so a failed
delete is never merged into the item's result. -/
theorem C2_cleanup_invariant (env : Env) (item : Item) (i : Nat)
    (unlinkOk unlinkOk2 : String → Bool) (r : Except NodeErr Record)
    (hdone : (processItem000 env item i).1 = .done r) :
    (processItemCleaned env unlinkOk item i).1 = .done r ∧
    ((∀ q ∈ (processItem000 env item i).2.map Prod.fst, unlinkOk q = true) →
      (processItemCleaned env unlinkOk item i).2 = []) ∧
    (processItemCleaned env unlinkOk item i).1 =
      (processItemCleaned env unlinkOk2 item i).1 := by
  have hpair : processItem000 env item i = (.done r, (processItem000 env item i).2) := by
    rw [← hdone]
  have hshape : ∀ ok : String → Bool, processItemCleaned env ok item i =
      (.done r, cleanupLoop ok ((processItem000 env item i).2.map Prod.fst)
        (processItem000 env item i).2) := by
    intro ok
    unfold processItemCleaned
    rw [hpair]
  refine ⟨?_, ?_, ?_⟩
  · rw [hshape unlinkOk]
  · intro hall
    rw [hshape unlinkOk]
    exact cleanupLoop_all unlinkOk _ _
      (fun f hf => ⟨List.mem_map_of_mem Prod.fst hf,
        hall f.1 (List.mem_map_of_mem Prod.fst hf)⟩)
  · rw [hshape unlinkOk, hshape unlinkOk2]

/-- Concrete environment for the C2 witness: one function whose schema has a
binary toggle pair, a process that closes promptly with a JSON result. -/
def envC2 : Env :=
  { manifestAccess := true,
    manifestJson := some ⟨[⟨"Convert", "convert", "ui/convert.json", "scripts/convert.py"⟩]⟩,
    scriptAccess := fun _ => true,
    uiAccess := fun _ => true,
    uiJson := fun _ => some ⟨[⟨"inputFileIsBinary", "boolean", none, none⟩,
      ⟨"inputFileBinaryPropertyName", "string", none, none⟩]⟩,
    parse := fun _ => some (.obj [("status", .str "ok")]),
    proc := fun _ _ => ⟨true, "", some 10, 0, "ok", ""⟩,
    now := 7 }

/-- Concrete item for the C2 witness, with one binary attachment. -/
def itemC2 : Item :=
  { getParam := fun n =>
      if n = "selectedFunction" then some (.str "convert")
      else if n = "inputFileIsBinary" then some (.bool true)
      else if n = "inputFileBinaryPropertyName" then some (.str "data")
      else none,
    binary := [("data", { bytes := [9, 8], fileName := some "in.mp4" })] }

/-- Witness for C2: a successful bridged invocation creates two transient
files (the bridged buffer and the params file); after cleanup none remains,
and a failing unlink oracle leaves the outcome unchanged. -/
theorem C2_cleanup_invariant_witness :
    (processItemCleaned envC2 (fun _ => true) itemC2 0).1 =
      .done (.ok { json := .obj [("status", .str "ok")], binary := [], pairedItem := 0 }) ∧
    (processItemCleaned envC2 (fun _ => true) itemC2 0).2 = [] ∧
    (processItemCleaned envC2 (fun _ => true) itemC2 0).1 =
      (processItemCleaned envC2 (fun _ => false) itemC2 0).1 := by
  have h := C2_cleanup_invariant envC2 itemC2 0 (fun _ => true) (fun _ => false)
    (.ok { json := .obj [("status", .str "ok")], binary := [], pairedItem := 0 }) (by rfl)
  exact ⟨h.1, h.2.1 (fun q _ => rfl), h.2.2⟩

/-- One record per item in input order, as claim C3 describes the output
sequence: the item's own record when its invocation succeeds, the error
record otherwise. -/
def itemRecords (proc : Nat → Item → Except NodeErr Record) :
    Nat → List Item → List Record
  | _, [] => []
  | i, it :: rest =>
    (match proc i it with
     | .ok r => r
     | .error e => errRecord e.message i) :: itemRecords proc (i + 1) rest

theorem runItemsFrom_cof_true (proc : Nat → Item → Except NodeErr Record)
    (items : List Item) : ∀ i0, runItemsFrom proc true i0 items =
      .ok (itemRecords proc i0 items) := by
  induction items with
  | nil => intro i0; rfl
  | cons it rest ih =>
    intro i0
    unfold runItemsFrom
    cases h : proc i0 it with
    | ok r => simp [ih (i0 + 1), itemRecords, h]
    | error e => simp [ih (i0 + 1), itemRecords, h]

theorem itemRecords_length (proc : Nat → Item → Except NodeErr Record)
    (items : List Item) : ∀ i0, (itemRecords proc i0 items).length = items.length := by
  induction items with
  | nil => intro i0; rfl
  | cons it rest ih => intro i0; simp [itemRecords, ih (i0 + 1)]

theorem itemRecords_getElem (proc : Nat → Item → Except NodeErr Record)
    (items : List Item) : ∀ i0 j, (itemRecords proc i0 items)[j]? =
      (items[j]?).map (fun it =>
        match proc (i0 + j) it with
        | .ok r => r
        | .error e => errRecord e.message (i0 + j)) := by
  induction items with
  | nil => intro i0 j; simp [itemRecords]
  | cons it rest ih =>
    intro i0 j
    cases j with
    | zero => simp [itemRecords]
    | succ j2 =>
      have harith : i0 + (j2 + 1) = (i0 + 1) + j2 := by omega
      simp only [itemRecords, List.getElem?_cons_succ, harith, ih (i0 + 1) j2]

theorem runItemsFrom_first_error (proc : Nat → Item → Except NodeErr Record)
    (items : List Item) : ∀ i0 j e itj, items[j]? = some itj →
      proc (i0 + j) itj = .error e →
      (∀ k it, k < j → items[k]? = some it → ∃ r, proc (i0 + k) it = .ok r) →
      runItemsFrom proc false i0 items = .error e := by
  induction items with
  | nil =>
    intro i0 j e itj hj
    simp at hj
  | cons it rest ih =>
    intro i0 j e itj hj herr hfirst
    cases j with
    | zero =>
      have hit : it = itj := by simpa using hj
      subst hit
      have h0 : proc i0 it = .error e := by simpa using herr
      unfold runItemsFrom
      simp [h0]
    | succ j2 =>
      obtain ⟨r, hr⟩ : ∃ r, proc i0 it = .ok r := by
        have h0 := hfirst 0 it (Nat.succ_pos j2) (by simp)
        simpa using h0
      have hrec : runItemsFrom proc false (i0 + 1) rest = .error e := by
        apply ih (i0 + 1) j2 e itj (by simpa using hj)
        · have harith : (i0 + 1) + j2 = i0 + (j2 + 1) := by omega
          rw [harith]
          exact herr
        · intro k itk hk hkk
          have h1 := hfirst (k + 1) itk (by omega) (by simpa using hkk)
          have harith : i0 + (k + 1) = (i0 + 1) + k := by omega
          rw [harith] at h1
          exact h1
      unfold runItemsFrom
      rw [hr, hrec]

/-- C3: items are processed strictly in index order with every invocation
error caught at the item boundary: with continue-on-failure set the loop
returns exactly one record per input item in input order, a failing item
contributing the error-message record, every record paired to its input
index, and non-failing items' records unchanged; without the policy the
first error aborts the remaining batch. -/
theorem C3_per_item_policy (proc : Nat → Item → Except NodeErr Record)
    (items : List Item)
    (hpaired : ∀ i it r, proc i it = .ok r → r.pairedItem = i) :
    runItems proc true items = .ok (itemRecords proc 0 items) ∧
    (itemRecords proc 0 items).length = items.length ∧
    (∀ j, (itemRecords proc 0 items)[j]? = (items[j]?).map (fun it =>
      match proc j it with
      | .ok r => r
      | .error e => errRecord e.message j)) ∧
    (∀ (j : Nat) (r0 : Record), (itemRecords proc 0 items)[j]? = some r0 →
      r0.pairedItem = j) ∧
    (∀ j e itj, items[j]? = some itj → proc j itj = .error e →
      (∀ k it, k < j → items[k]? = some it → ∃ r, proc k it = .ok r) →
      runItems proc false items = .error e) := by
  have hget : ∀ j, (itemRecords proc 0 items)[j]? = (items[j]?).map (fun it =>
      match proc j it with
      | .ok r => r
      | .error e => errRecord e.message j) := by
    intro j
    have h := itemRecords_getElem proc items 0 j
    simpa using h
  have hpair2 : ∀ (items2 : List Item) (i0 j : Nat) (r0 : Record),
      (itemRecords proc i0 items2)[j]? = some r0 → r0.pairedItem = i0 + j := by
    intro items2
    induction items2 with
    | nil =>
      intro i0 j r0 hr0
      simp [itemRecords] at hr0
    | cons it rest ih =>
      intro i0 j r0 hr0
      cases j with
      | zero =>
        simp only [itemRecords, List.getElem?_cons_zero, Option.some.injEq] at hr0
        cases hp : proc i0 it with
        | ok r =>
          rw [hp] at hr0
          simp at hr0
          have hr := hpaired i0 it r hp
          rw [← hr0]
          omega
        | error e =>
          rw [hp] at hr0
          simp at hr0
          rw [← hr0]
          simp [errRecord]
      | succ j2 =>
        simp only [itemRecords, List.getElem?_cons_succ] at hr0
        have h2 := ih (i0 + 1) j2 r0 hr0
        omega
  refine ⟨runItemsFrom_cof_true proc items 0, itemRecords_length proc items 0, hget, ?_, ?_⟩
  · intro j r0 hr0
    have h2 := hpair2 items 0 j r0 hr0
    omega
  · intro j e itj hj herr hfirst
    apply runItemsFrom_first_error proc items 0 j e itj hj (by simpa using herr)
    intro k it hk hkk
    have h1 := hfirst k it hk hkk
    simpa using h1

/-- Per-item body for the C3 witness: item 1 fails, items 0 and 2 succeed. -/
def procC3 : Nat → Item → Except NodeErr Record :=
  fun i _ =>
    if i = 1 then .error .noFunctionSelected
    else .ok { json := .obj [("ok", .bool true)], binary := [], pairedItem := i }

/-- Three input items for the C3 witness. -/
def itemsC3 : List Item :=
  [⟨fun _ => none, []⟩, ⟨fun _ => none, []⟩, ⟨fun _ => none, []⟩]

/-- Witness for C3 at the spec's ordering example: three items with item 1
failing yield three records in order with the middle one the error record
when continue-on-failure is set, and the batch aborts with that error when
it is not. -/
theorem C3_per_item_policy_witness :
    runItems procC3 true itemsC3 = .ok
      [{ json := .obj [("ok", .bool true)], binary := [], pairedItem := 0 },
       errRecord NodeErr.noFunctionSelected.message 1,
       { json := .obj [("ok", .bool true)], binary := [], pairedItem := 2 }] ∧
    runItems procC3 false itemsC3 = .error .noFunctionSelected := by
  have hpaired : ∀ i it r, procC3 i it = .ok r → r.pairedItem = i := by
    intro i it r h
    unfold procC3 at h
    by_cases hi : i = 1
    · rw [if_pos hi] at h
      cases h
    · rw [if_neg hi] at h
      injection h with h2
      rw [← h2]
  have h := C3_per_item_policy procC3 itemsC3 hpaired
  constructor
  · exact h.1.trans (by rfl)
  · apply h.2.2.2.2 1 .noFunctionSelected ⟨fun _ => none, []⟩ (by rfl) (by rfl)
    intro k it hk hkk
    have hk0 : k = 0 := by omega
    subst hk0
    exact ⟨_, rfl⟩

/-- Show conditions of a property (the show map of its displayOptions, empty
when absent). -/
def propShow (p : UiProp) : List (String × List Value) :=
  (p.displayOptions.getD ⟨[], []⟩).showConds

/-- Hide conditions of a property (the hide map of its displayOptions, empty
when absent). -/
def propHide (p : UiProp) : List (String × List Value) :=
  (p.displayOptions.getD ⟨[], []⟩).hideConds

theorem aset_append_of_none {α : Type} (l : List (String × α)) (k : String) (v : α)
    (h : alookup l k = none) : aset l k v = l ++ [(k, v)] := by
  induction l with
  | nil => rfl
  | cons kv rest ih =>
    unfold alookup at h
    by_cases hk : kv.1 = k
    · rw [if_pos hk] at h
      cases h
    · rw [if_neg hk] at h
      unfold aset
      rw [if_neg hk, ih h]
      rfl

theorem showSat_append (ctx : List (String × Value)) (a b : List (String × List Value)) :
    showSat ctx (a ++ b) = (showSat ctx a && showSat ctx b) := by
  simp [showSat, List.all_append]

/-- C7 (amended): every valid parameter descriptor of every manifest entry is
registered augmented so that its show map gains selectedFunction equal to the
singleton list of the entry id while every other show key and the whole hide
map are preserved; whenever the source schema does not itself constrain
selectedFunction, the augmented condition is exactly the intersection of the
source condition with "the entry's function is selected"; a source-declared
selectedFunction show condition is overwritten, not intersected. -/
theorem C7_visibility_merge (env : Env) (manifest : IManifest)
    (func : IFFmpegFunction) (uiConfig : UiConfig) (p : UiProp)
    (hacc : env.manifestAccess = true) (hman : env.manifestJson = some manifest)
    (hfunc : func ∈ manifest.functions) (hui : func.uiFile ≠ "") (hval : func.value ≠ "")
    (huacc : env.uiAccess func.uiFile = true) (huj : env.uiJson func.uiFile = some uiConfig)
    (hp : p ∈ uiConfig.properties) (hname : p.name ≠ "") (htype : p.type ≠ "") :
    augmentProp func.value p ∈ loadDynamicProps env ∧
    propHide (augmentProp func.value p) = propHide p ∧
    alookup (propShow (augmentProp func.value p)) "selectedFunction" =
      some [Value.str func.value] ∧
    (∀ k, k ≠ "selectedFunction" →
      alookup (propShow (augmentProp func.value p)) k = alookup (propShow p) k) ∧
    (alookup (propShow p) "selectedFunction" = none →
      ∀ ctx, showSat ctx (propShow (augmentProp func.value p)) =
        (showSat ctx (propShow p) && selMatches ctx func.value)) := by
  have hshow : propShow (augmentProp func.value p) =
      aset (propShow p) "selectedFunction" [Value.str func.value] := rfl
  refine ⟨?_, rfl, ?_, ?_, ?_⟩
  · unfold loadDynamicProps
    rw [hacc, hman]
    simp only [Bool.not_true, Bool.false_eq_true, if_false]
    rw [List.mem_flatMap]
    refine ⟨func, hfunc, ?_⟩
    unfold dynamicPropsForFunction
    rw [if_neg (by simp [hui, hval]), if_neg (by simp [huacc]), huj]
    apply List.mem_map_of_mem
    rw [List.mem_filter]
    exact ⟨hp, by simp [hname, htype]⟩
  · rw [hshow]
    exact alookup_aset_self (propShow p) "selectedFunction" [Value.str func.value]
  · intro k hk
    rw [hshow]
    exact alookup_aset_ne (propShow p) "selectedFunction" k [Value.str func.value] hk
  · intro hnone ctx
    rw [hshow, aset_append_of_none (propShow p) "selectedFunction" [Value.str func.value] hnone,
      showSat_append]
    congr 1
    simp only [showSat, List.all_cons, List.all_nil, Bool.and_true]
    unfold selMatches
    cases alookup ctx "selectedFunction" with
    | none => rfl
    | some v => rfl

/-- Counterexample to C7 as stated: a source descriptor narrowed by the show
condition selectedFunction in the list with only other is augmented for the
entry fnA; the augmented show condition holds in a context where the source
condition is false, so the merge destroyed the pre-existing narrowing instead
of intersecting with it. -/
theorem C7_visibility_merge_counterexample :
    propShow (augmentProp "fnA"
      ⟨"x", "string", none, some ⟨[("selectedFunction", [Value.str "other"])], []⟩⟩) =
      [("selectedFunction", [Value.str "fnA"])] ∧
    showSat [("selectedFunction", Value.str "fnA")]
      (propShow (augmentProp "fnA"
        ⟨"x", "string", none, some ⟨[("selectedFunction", [Value.str "other"])], []⟩⟩)) =
      true ∧
    showSat [("selectedFunction", Value.str "fnA")]
      [("selectedFunction", [Value.str "other"])] = false :=
  ⟨rfl, by decide, by decide⟩

/-- Concrete environment for the C7 witness: one function entry whose single
schema property carries a pre-existing show condition on the key mode. -/
def envC7 : Env :=
  { manifestAccess := true,
    manifestJson := some ⟨[⟨"Trim", "trim", "ui/trim.json", "scripts/trim.py"⟩]⟩,
    scriptAccess := fun _ => true,
    uiAccess := fun _ => true,
    uiJson := fun _ => some ⟨[⟨"start", "string", none,
      some ⟨[("mode", [Value.str "range"])], []⟩⟩]⟩,
    parse := fun _ => none,
    proc := fun _ _ => ⟨true, "", some 0, 0, "", ""⟩,
    now := 0 }

/-- The schema property of the C7 witness. -/
def propC7 : UiProp :=
  ⟨"start", "string", none, some ⟨[("mode", [Value.str "range"])], []⟩⟩

/-- Witness for C7: the augmented descriptor is registered, and at a context
selecting the function with mode equal to range the augmented condition
equals the intersection of the source condition and the selection test. -/
theorem C7_visibility_merge_witness :
    augmentProp "trim" propC7 ∈ loadDynamicProps envC7 ∧
    showSat [("mode", Value.str "range"), ("selectedFunction", Value.str "trim")]
        (propShow (augmentProp "trim" propC7)) =
      (showSat [("mode", Value.str "range"), ("selectedFunction", Value.str "trim")]
          (propShow propC7) &&
        selMatches [("mode", Value.str "range"), ("selectedFunction", Value.str "trim")]
          "trim") := by
  have h := C7_visibility_merge envC7 ⟨[⟨"Trim", "trim", "ui/trim.json", "scripts/trim.py"⟩]⟩
    ⟨"Trim", "trim", "ui/trim.json", "scripts/trim.py"⟩
    ⟨[propC7]⟩ propC7 rfl rfl (by decide) (by decide) (by decide) rfl rfl
    (by decide) (by decide) (by decide)
  exact ⟨h.1, h.2.2.2.2 rfl [("mode", Value.str "range"),
    ("selectedFunction", Value.str "trim")]⟩

end FFmpegNode
